import Mathlib

/-!
Verification of the v1 directory-signature reader (`src/v1/reader.rs`).

The reader is embedded shallowly: byte strings are `List Nat` (one `Nat`
per byte), the byte source is the list of its newline-delimited lines
(trailing newline stripped, exactly as `BufRead::read_until` plus the
`line.pop()` in the source produce them), and each Rust function becomes
a Lean function of the same name where possible.  Rust `Path` values are
byte strings; the component-wise `Path` operations (`partial_cmp`,
`starts_with`, `join`) are modelled on Unix semantics.
-/

namespace DirSig

/-- Bytes of a Lean string literal (used only to write concrete inputs). -/
def strBytes (s : String) : List Nat := s.data.map Char.toNat

/-- Rust `slice::split` / `str::split` on a single separator byte:
splits at every occurrence, keeping empty segments. -/
def splitAll (sep : Nat) : List Nat → List (List Nat)
  | [] => [[]]
  | c :: r =>
    match splitAll sep r with
    | [] => if c = sep then [[], []] else [[c]]
    | h :: t => if c = sep then [] :: h :: t else (c :: h) :: t

/-- Rust `splitn(2, sep)`: the part before the first separator, and
(when a separator occurs) the remainder after it. -/
def splitn2 (sep : Nat) : List Nat → List Nat × Option (List Nat)
  | [] => ([], none)
  | c :: r =>
    if c = sep then ([], some r)
    else
      match splitn2 sep r with
      | (a, b) => (c :: a, b)

/-- `parse_field` from the source: `data.splitn(2, b' ')`, first field and
tail (tail empty when no space occurs). -/
def parse_field (data : List Nat) : List Nat × List Nat :=
  match splitn2 32 data with
  | (f, some t) => (f, t)
  | (f, none) => (f, [])

/-! ## Rust `Path` semantics (Unix) -/

/-- A Unix path component, as produced by `Path::components`. -/
inductive Component where
  | rootDir : Component
  | curDir : Component
  | parentDir : Component
  | normal : List Nat → Component
  deriving DecidableEq, Repr

/-- Body components of a path: empty segments dropped, `.` segments
normalized away, `..` a `parentDir`. -/
def bodyComps (parts : List (List Nat)) : List Component :=
  parts.filterMap fun part =>
    if part = [46] then none
    else if part = [46, 46] then some .parentDir
    else some (.normal part)

/-- `Path::components` on Unix: a leading `/` is `rootDir`; a leading `.`
segment of a relative path is kept as `curDir`; all other `.` and empty
segments are dropped. -/
def components (p : List Nat) : List Component :=
  let parts := (splitAll 47 p).filter (fun x => x ≠ [])
  if p.head? = some 47 then .rootDir :: bodyComps parts
  else
    match parts with
    | p0 :: rest => if p0 = [46] then .curDir :: bodyComps rest else bodyComps parts
    | [] => []

/-- Raw-byte lexicographic comparison of byte strings (Rust `OsStr` order). -/
def compareBytes : List Nat → List Nat → Ordering
  | [], [] => .eq
  | [], _ :: _ => .lt
  | _ :: _, [] => .gt
  | a :: as', b :: bs' =>
    if a < b then .lt else if b < a then .gt else compareBytes as' bs'

/-- Rank of a component in the derived Rust `Ord` on `Component`
(`RootDir < CurDir < ParentDir < Normal`). -/
def compRank : Component → Nat
  | .rootDir => 0
  | .curDir => 1
  | .parentDir => 2
  | .normal _ => 3

/-- Rust `Ord` on `Component`: variants in declaration order, `Normal`
compared by bytes. -/
def compareComponent : Component → Component → Ordering
  | .normal a, .normal b => compareBytes a b
  | x, y => compare (compRank x) (compRank y)

/-- Lexicographic comparison of component lists (Rust `Iterator::cmp`). -/
def compareComponents : List Component → List Component → Ordering
  | [], [] => .eq
  | [], _ :: _ => .lt
  | _ :: _, [] => .gt
  | x :: xs, y :: ys =>
    match compareComponent x y with
    | .eq => compareComponents xs ys
    | o => o

/-- Rust `Path::partial_cmp` (total on Unix paths): component-wise order. -/
def pathCompare (p q : List Nat) : Ordering :=
  compareComponents (components p) (components q)

/-- Component-list prefix test. -/
def prefixComps : List Component → List Component → Bool
  | [], _ => true
  | _ :: _, [] => false
  | x :: xs, y :: ys => decide (x = y) && prefixComps xs ys

/-- Rust `path.starts_with(base)`: `base`'s components are a prefix of
`path`'s components. -/
def pathStartsWith (path base : List Nat) : Bool :=
  prefixComps (components base) (components path)

/-- Rust `Path::join` (Unix): an absolute right operand replaces; otherwise
append with a `/` separator unless one is already present. -/
def pathJoin (a b : List Nat) : List Nat :=
  if b.head? = some 47 then b
  else if a = [] then b
  else if a.getLast? = some 47 then a ++ b
  else a ++ 47 :: b

/-! ## Escape codec (`unescape_hex` and helpers) -/

/-- `is_hex` from the source: a byte is an ASCII hex digit. -/
def is_hex (c : Nat) : Bool :=
  decide ((48 ≤ c ∧ c ≤ 57) ∨ (65 ≤ c ∧ c ≤ 70) ∨ (97 ≤ c ∧ c ≤ 102))

/-- `hex_to_digit` from the source; the source's `v & 0x0f` is written as
`v % 16`. -/
def hex_to_digit (v : Nat) : Nat :=
  if 48 ≤ v ∧ v ≤ 57 then v % 16 else v % 16 + 9

/-- `parse_hex` from the source, applied to the two digit bytes; the
source's `(hi << 4) | lo` is written `hi * 16 + lo`, equal to it because
`hex_to_digit` of the bytes reaching this call is below 16. -/
def parse_hex (a b : Nat) : Nat :=
  hex_to_digit a * 16 + hex_to_digit b

/-- `is_hex_encoding` from the source: the string starts with `\` `x` and
two hex digits. -/
def is_hex_encoding : List Nat → Bool
  | a :: b :: c :: d :: _ => a = 92 && b = 120 && is_hex c && is_hex d
  | _ => false

/-- The pre-scan loop of `unescape_hex`: index of the first position where
an escape window starts, or the length when there is none. -/
def preScan : List Nat → Nat
  | [] => 0
  | b :: rest => if is_hex_encoding (b :: rest) then 0 else 1 + preScan rest

/-- The rewriting loop of `unescape_hex` from the first escape on: at each
position, a valid window is replaced by its decoded byte (consuming 4
bytes), anything else is copied (consuming 1).  Lists shorter than 4
bytes never satisfy `is_hex_encoding`, hence the second arm copies. -/
def unescapeLoop : List Nat → List Nat
  | b :: x :: h1 :: h2 :: r =>
    if is_hex_encoding (b :: x :: h1 :: h2 :: r) then
      parse_hex h1 h2 :: unescapeLoop r
    else
      b :: unescapeLoop (x :: h1 :: h2 :: r)
  | b :: r => b :: unescapeLoop r
  | [] => []
  termination_by s => s.length

/-- Rust `Cow<OsStr>` restricted to what `unescape_hex` produces. -/
inductive CowBytes where
  | borrowed : List Nat → CowBytes
  | owned : List Nat → CowBytes
  deriving DecidableEq, Repr

/-- The byte content of either `CowBytes` form. -/
def CowBytes.bytes : CowBytes → List Nat
  | .borrowed s => s
  | .owned v => v

/-- `unescape_hex` from the source: pre-scan for the first escape window;
if none, borrow the input unchanged; otherwise copy the clean prefix and
rewrite the rest. -/
def unescape_hex (s : List Nat) : CowBytes :=
  let i := preScan s
  if i < s.length then .owned (s.take i ++ unescapeLoop (s.drop i))
  else .borrowed s

/-- Spec-side hex-digit validity: `0`–`9`, `A`–`F`, `a`–`f`. -/
def isHexDigit (c : Nat) : Bool :=
  decide ((48 ≤ c ∧ c ≤ 57) ∨ (65 ≤ c ∧ c ≤ 70) ∨ (97 ≤ c ∧ c ≤ 102))

/-- Spec-side value of a hex digit byte. -/
def hexVal (c : Nat) : Nat :=
  if 48 ≤ c ∧ c ≤ 57 then c - 48
  else if 65 ≤ c ∧ c ≤ 70 then c - 55
  else c - 87

/-- Spec-side decoder: scan left to right; a backslash-`x`-digit-digit
window becomes the byte `16 * high + low`; every other byte is copied. -/
def specDecode : List Nat → List Nat
  | 92 :: 120 :: h1 :: h2 :: rest =>
    if isHexDigit h1 && isHexDigit h2 then
      (16 * hexVal h1 + hexVal h2) :: specDecode rest
    else
      92 :: specDecode (120 :: h1 :: h2 :: rest)
  | b :: rest => b :: specDecode rest
  | [] => []
  termination_by s => s.length

/-- Spec-side: does any position of the string start a valid escape
window? -/
def containsEscape : List Nat → Bool
  | [] => false
  | b :: rest => is_hex_encoding (b :: rest) || containsEscape rest

/-! ## Integer field and entry parsing -/

/-- Rust `u64::from_str_radix(v, 10)` applied to a byte field: optional
leading `+`, then at least one decimal digit, value below `2 ^ 64`. -/
def parseU64 (f : List Nat) : Option Nat :=
  let digits := match f with | 43 :: rest => rest | _ => f
  if digits = [] then none
  else if digits.all (fun c => decide (48 ≤ c ∧ c ≤ 57)) then
    let v := digits.foldl (fun acc c => acc * 10 + (c - 48)) 0
    if v < 2 ^ 64 then some v else none
  else none

/-- `parse_u64` from the source: first field as a `u64`, plus the tail.
The UTF-8 re-check of the source is subsumed: any byte that is not an
ASCII digit or sign already fails `from_str_radix`. -/
def parse_u64 (data : List Nat) : Except String (Nat × List Nat) :=
  match parse_field data with
  | (f, t) =>
    match parseU64 f with
    | some v => .ok (v, t)
    | none => .error "Cannot parse integer"

/-- `Hashes::parse` from the source: empty row gives no hashes, otherwise
split on single spaces.  Hash strings are kept as byte strings; the
source's UTF-8 validation only affects the error payload for non-UTF-8
hash text and is not modelled. -/
def Hashes_parse (row : List Nat) : List (List Nat) :=
  if row = [] then [] else splitAll 32 row

/-- `Entry` from the source: directory, file (path, size, hashes) or
symlink (path, target), paths as byte strings. -/
inductive Entry where
  | dir : List Nat → Entry
  | file : List Nat → Nat → List (List Nat) → Entry
  | link : List Nat → List Nat → Entry
  deriving DecidableEq, Repr

/-- `Entry::parse` from the source: strip one trailing newline; a line
starting with `/` is a directory (its first field); a line starting with
two spaces is a file (`f`/`x`) or symlink (`s`) whose path is the current
directory joined with the line's first field; anything else errs. -/
def Entry.parse (row0 cur_dir : List Nat) : Except String Entry :=
  let row := if row0.getLast? = some 10 then row0.dropLast else row0
  if row.head? = some 47 then
    .ok (.dir (parse_field row).1)
  else if row.take 2 = [32, 32] then
    let r1 := row.drop 2
    match parse_field r1 with
    | (rel, r2) =>
      let path := pathJoin cur_dir rel
      match parse_field r2 with
      | (ftype, r3) =>
        if ftype = [102] ∨ ftype = [120] then
          match parse_u64 r3 with
          | .ok (size, r4) => .ok (.file path size (Hashes_parse r4))
          | .error e => .error e
        else if ftype = [115] then
          .ok (.link path (parse_field r3).1)
        else .error "Unknown file type"
  else .error "Expected slash or two spaces"

/-! ## Header -/

/-- UTF-8 validity of a byte string, checked with a work list of allowed
ranges for pending continuation bytes. -/
def utf8Expect : List (Nat × Nat) → List Nat → Bool
  | [], [] => true
  | _ :: _, [] => false
  | (lo, hi) :: es, b :: rest =>
    if lo ≤ b ∧ b ≤ hi then utf8Expect es rest else false
  | [], b :: rest =>
    if b < 128 then utf8Expect [] rest
    else if 194 ≤ b ∧ b ≤ 223 then utf8Expect [(128, 191)] rest
    else if b = 224 then utf8Expect [(160, 191), (128, 191)] rest
    else if (225 ≤ b ∧ b ≤ 236) ∨ b = 238 ∨ b = 239 then
      utf8Expect [(128, 191), (128, 191)] rest
    else if b = 237 then utf8Expect [(128, 159), (128, 191)] rest
    else if b = 240 then utf8Expect [(144, 191), (128, 191), (128, 191)] rest
    else if 241 ≤ b ∧ b ≤ 243 then
      utf8Expect [(128, 191), (128, 191), (128, 191)] rest
    else if b = 244 then utf8Expect [(128, 143), (128, 191), (128, 191)] rest
    else false

/-- Rust `std::str::from_utf8` succeeds. -/
def validUtf8 (s : List Nat) : Bool := utf8Expect [] s

/-- Modelled from the spec: the magic constant `MAGIC` lives in the
writer module, which is not part of the sources; the spec fixes it as
the literal `DIRSIGNATURE`. -/
def MAGIC : List Nat := strBytes "DIRSIGNATURE"

/-- Modelled from the spec: `HashType` is declared in the crate root,
which is not part of the sources; the spec gives a closed set of
algorithm names (`sha512/256`, `blake2b/256`). -/
inductive HashType where
  | sha512_256 : HashType
  | blake2b_256 : HashType
  deriving DecidableEq, Repr

/-- Modelled from the spec: `HashType::from_str` resolves exactly the
closed set of algorithm names. -/
def HashType.fromStr (s : List Nat) : Option HashType :=
  if s = strBytes "sha512/256" then some .sha512_256
  else if s = strBytes "blake2b/256" then some .blake2b_256
  else none

/-- `Header` from the source. -/
structure Header where
  version : List Nat
  hash_type : HashType
  block_size : Nat
  deriving DecidableEq, Repr

/-- Outcome of `Header::parse`: success, a `ParseRowError`, or a panic
(the source can reach `Option::unwrap` on `None`). -/
inductive HeadResult where
  | ok : Header → HeadResult
  | err : String → HeadResult
  | panicked : HeadResult
  deriving DecidableEq, Repr

/-- Rust `trim_right_matches('\n')`: drop every trailing newline byte. -/
def trimNl (l : List Nat) : List Nat :=
  (l.reverse.dropWhile (fun c => c = 10)).reverse

/-- `Header::parse` from the source: UTF-8 check, trailing newlines
stripped, fields split on single spaces; the signature splits on the
first `.` into magic and version; the third field must be
`block_size=<u64>` — when the `=` is missing the source unwraps `None`
and panics. -/
def Header.parse (row : List Nat) : HeadResult :=
  if ¬ validUtf8 row then .err "expected valid utf8 string"
  else
    let line := trimNl row
    let parts := splitAll 32 line
    match parts with
    | [] => .err "Invalid header"
    | signature :: parts1 =>
      match splitn2 46 signature with
      | (magic, version?) =>
        if magic ≠ MAGIC then .err "Invalid signature"
        else
          match version? with
          | none => .err "Missing version"
          | some version =>
            match parts1 with
            | [] => .err "Invalid header: missing hash type"
            | hash_type_str :: parts2 =>
              match HashType.fromStr hash_type_str with
              | none => .err "Unsupported hash type"
              | some hash_type =>
                match parts2 with
                | [] => .err "Invalid header: missing block size attribute"
                | block_size_attr :: _ =>
                  match splitn2 61 block_size_attr with
                  | (k, v?) =>
                    if k ≠ strBytes "block_size" then
                      .err "Invalid header: expected block_size attribute"
                    else
                      match v? with
                      | none => .panicked
                      | some v =>
                        match parseU64 v with
                        | none => .err "Invalid header: bad block size"
                        | some block_size =>
                          .ok ⟨version, hash_type, block_size⟩

/-! ## Parser engine

The byte source of `Parser<R>` is modelled as the list of its
newline-delimited lines (`source`, trailing newlines stripped, index 0
the header line) together with the number of lines already consumed
(`pos`).  This is exactly the granularity at which the source reads: it
only ever calls `read_until(b'\n', ..)`. -/

/-- `Parser` state from the source: the parsed header, the byte source
and its position, the current directory, and the 1-based row counter. -/
structure Parser where
  header : Header
  source : List (List Nat)
  pos : Nat
  current_dir : List Nat
  current_row_num : Nat
  deriving DecidableEq, Repr

/-- The loop body of `next_line`: skip empty lines, return the first
nonempty line together with the number of lines consumed. -/
def skipBlank : List (List Nat) → Option (List Nat × Nat)
  | [] => none
  | l :: rest =>
    if l = [] then (skipBlank rest).map (fun x => (x.1, x.2 + 1)) else some (l, 1)

/-- `Parser::next_line` from the source: read lines (stripping the
trailing newline) until a nonempty one arrives; `none` at end of
stream. -/
def nextLine (p : Parser) : Option (List Nat) × Parser :=
  match skipBlank (p.source.drop p.pos) with
  | some (l, n) => (some l, { p with pos := p.pos + n })
  | none => (none, { p with pos := p.source.length })

/-- A parse failure surfaced by the engine: message and 1-based row. -/
abbrev RowError := String × Nat

/-- `<Parser as Iterator>::next` from the source: pull the next nonempty
line, bump the row counter, parse the entry in the current directory
context, and on a directory entry update that context. -/
def parserNext (p : Parser) : Option (Except RowError Entry) × Parser :=
  match nextLine p with
  | (none, p1) => (none, p1)
  | (some line, p1) =>
    let p2 := { p1 with current_row_num := p1.current_row_num + 1 }
    match Entry.parse line p2.current_dir with
    | .error e => (some (.error (e, p2.current_row_num)), p2)
    | .ok ent =>
      match ent with
      | .dir d => (some (.ok ent), { p2 with current_dir := d })
      | _ => (some (.ok ent), p2)

/-- The results of `n` successive `next()` calls. -/
def runNext (p : Parser) : Nat → List (Option (Except RowError Entry))
  | 0 => []
  | n + 1 =>
    match parserNext p with
    | (r, p') => r :: runNext p' n

/-- Outcome of `Parser::advance`: `Ok(Some(entry))`, `Ok(None)` (not
found or end of stream), or `Err` with message and row. -/
inductive AdvResult where
  | found : Entry → AdvResult
  | notFound : AdvResult
  | failed : String → Nat → AdvResult
  deriving DecidableEq, Repr

/-- Bump the consumed-line count of a loop outcome by one. -/
def consume1 (r : AdvResult × Nat × List Nat × Nat) :
    AdvResult × Nat × List Nat × Nat :=
  (r.1, r.2.1 + 1, r.2.2.1, r.2.2.2)

/-- The loop of `Parser::advance` from the source, over the remaining
lines; returns the outcome, the number of lines consumed, and the final
directory context and row counter.  Empty lines are consumed by
`next_line` without touching the row counter; the `skip_files` flag is
set when a passed directory line is not an ancestor of the target and is
never cleared. -/
def advLoop (target : List Nat) :
    Bool → List Nat → Nat → List (List Nat) → AdvResult × Nat × List Nat × Nat
  | _, cd, row, [] => (.notFound, 0, cd, row)
  | sf, cd, row, line :: rest =>
    if line = [] then
      consume1 (advLoop target sf cd row rest)
    else
      let row' := row + 1
      if line.head? = some 47 then
        let dirPath := (parse_field line).1
        match pathCompare dirPath target with
        | .lt =>
          if pathStartsWith target dirPath then
            consume1 (advLoop target sf dirPath row' rest)
          else
            consume1 (advLoop target true cd row' rest)
        | .eq => (.found (.dir dirPath), 1, cd, row')
        | .gt => (.notFound, 1, cd, row')
      else if sf then
        consume1 (advLoop target sf cd row' rest)
      else if line.take 2 = [32, 32] then
        let filePath := (parse_field (line.drop 2)).1
        match pathCompare (pathJoin cd filePath) target with
        | .lt => consume1 (advLoop target sf cd row' rest)
        | .eq =>
          match Entry.parse line cd with
          | .ok e => (.found e, 1, cd, row')
          | .error m => (.failed m row', 1, cd, row')
        | .gt => (.notFound, 1, cd, row')
      else (.failed "Expected slash or two spaces" row', 1, cd, row')

/-- `Parser::advance` from the source: starts with `skip_files` set when
the target does not start with the current directory, then runs the scan
loop from the current position. -/
def parserAdvance (p : Parser) (target : List Nat) : AdvResult × Parser :=
  match advLoop target (! pathStartsWith target p.current_dir)
      p.current_dir p.current_row_num (p.source.drop p.pos) with
  | (res, n, cd, row) =>
    (res, { p with pos := p.pos + n, current_dir := cd, current_row_num := row })

/-- Outcome of `Parser::new`. -/
inductive NewResult where
  | ok : Parser → NewResult
  | err : String → Nat → NewResult
  | panicked : NewResult
  deriving DecidableEq, Repr

/-- `Parser::new` from the source: read the first line, parse it as the
header (errors tagged with row 1), and start just past it with an empty
directory context and the row counter at 1. -/
def Parser.new (source : List (List Nat)) : NewResult :=
  match Header.parse (source.head?.getD []) with
  | .ok h => .ok ⟨h, source, 1, [], 1⟩
  | .err m => .err m 1
  | .panicked => .panicked

/-- `Parser::reset` from the source: seek to the start, clear the
directory context, reset the row counter to 1, and read (and discard)
one line via `next_line`. -/
def parserReset (p : Parser) : Parser :=
  (nextLine { p with pos := 0, current_dir := [], current_row_num := 1 }).2

/-! ## Spec-side descriptions used to state the claims -/

/-- Raw-byte lexicographic order on full path byte strings, as the spec
words it. -/
def rawByteCompare (p q : List Nat) : Ordering := compareBytes p q

/-- Classification of a raw content line, as the spec describes it:
a directory line carrying its path, a file/symlink line carrying its
relative path, or a malformed line. -/
inductive LineClass where
  | dirLine : List Nat → LineClass
  | entryLine : List Nat → LineClass
  | badLine : LineClass

/-- Spec-side line classifier: `/` starts a directory line (path is the
first field), two spaces start a file/symlink line (relative path is the
first field after them), anything else is malformed. -/
def classifyLine (line : List Nat) : LineClass :=
  if line.head? = some 47 then .dirLine (parse_field line).1
  else if line.take 2 = [32, 32] then .entryLine (parse_field (line.drop 2)).1
  else .badLine

/-- Spec-side prescription of the `advance` scan, with the order of every
path comparison made explicit (component-wise `pathCompare`): classify
each line; on a directory `D` compare to the target — descend on a
smaller ancestor, enter skip-files mode on a smaller non-ancestor,
return the directory on equality, give up on overshoot; on a
file/symlink line outside skip-files mode compare its joined full path —
skip smaller ones, fully parse the equal one, give up on overshoot;
while in skip-files mode every non-directory line is skipped; end of
stream is not found.  Skip-files mode, once entered, persists for the
rest of the call. -/
def scanResult (target : List Nat) :
    Bool → List Nat → Nat → List (List Nat) → AdvResult
  | _, _, _, [] => .notFound
  | sf, cd, row, line :: rest =>
    if line = [] then scanResult target sf cd row rest
    else
      match classifyLine line with
      | .dirLine d =>
        match pathCompare d target with
        | .lt =>
          if pathStartsWith target d then scanResult target sf d (row + 1) rest
          else scanResult target true cd (row + 1) rest
        | .eq => .found (.dir d)
        | .gt => .notFound
      | .entryLine rel =>
        if sf then scanResult target sf cd (row + 1) rest
        else
          match pathCompare (pathJoin cd rel) target with
          | .lt => scanResult target sf cd (row + 1) rest
          | .eq =>
            match Entry.parse line cd with
            | .ok e => .found e
            | .error m => .failed m (row + 1)
          | .gt => .notFound
      | .badLine =>
        if sf then scanResult target sf cd (row + 1) rest
        else .failed "Expected slash or two spaces" (row + 1)

/-- Lines of a raw byte stream as `read_until(b'\n')` delivers them:
split on newline; a trailing newline produces no extra line. -/
def streamLines (s : List Nat) : List (List Nat) :=
  let ls := splitAll 10 s
  if ls.getLast? = some [] then ls.dropLast else ls

/-! ## The six-line sample stream of the spec -/

/-- The sample header line. -/
def sampleHeaderLine : List Nat := strBytes "DIRSIGNATURE.v1 sha512/256 block_size=32768"

/-- First block hash of `hello.txt` in the sample. -/
def hashA : List Nat :=
  strBytes "8dd499a36d950b8732f85a3bffbc8d8bee4a0af391e8ee2bb0aa0c4553b6c0fc"

/-- First block hash of `.hidden` in the sample. -/
def hashB : List Nat :=
  strBytes "24f72d3a930b5f7933ddd91a5c7cb7ba09a093f936a04bf6486c8b1763c59819"

/-- Second block hash of `.hidden` in the sample. -/
def hashC : List Nat :=
  strBytes "9ce28248299290fe84340d7821adf01b3b6a579ef827e1e58bc3949de4b7e5d9"

/-- The six-line sample stream of the spec, as its list of lines. -/
def sampleLines : List (List Nat) :=
  [ sampleHeaderLine
  , strBytes "/"
  , strBytes "  empty.txt f 0"
  , strBytes "  hello.txt f 6 " ++ hashA
  , strBytes "/subdir"
  , strBytes "  .hidden f 58394 " ++ hashB ++ strBytes " " ++ hashC
  , strBytes "  link s ../hello.txt"
  ]

/-- The sample header value. -/
def sampleHeader : Header := ⟨strBytes "v1", .sha512_256, 32768⟩

/-- A freshly constructed parser on the sample stream. -/
def sampleParser : Parser := ⟨sampleHeader, sampleLines, 1, [], 1⟩

/-! ## Streams used as concrete counterexamples -/

/-- A stream whose directory lines are in ascending raw-byte order of
their full paths (`/a-b` sorts before `/a/b` byte-wise). -/
def cexLinesA : List (List Nat) := [sampleHeaderLine, strBytes "/a-b", strBytes "/a/b"]

/-- Fresh parser on `cexLinesA`. -/
def cexParserA : Parser := ⟨sampleHeader, cexLinesA, 1, [], 1⟩

/-- A well-sorted stream in which the target `/subdir/link` is preceded
by the non-ancestor directory `/other`. -/
def cexLinesB : List (List Nat) :=
  [ sampleHeaderLine, strBytes "/", strBytes "/other", strBytes "  x f 0"
  , strBytes "/subdir", strBytes "  link s ../hello.txt" ]

/-- Fresh parser on `cexLinesB`. -/
def cexParserB : Parser := ⟨sampleHeader, cexLinesB, 1, [], 1⟩

/-- A stream with an entirely blank content line between `/` and a file
line. -/
def cexLinesC : List (List Nat) :=
  [sampleHeaderLine, strBytes "/", [], strBytes "  a f 0"]

/-- Fresh parser on `cexLinesC`. -/
def cexParserC : Parser := ⟨sampleHeader, cexLinesC, 1, [], 1⟩

/-- A stream on which `advance("/b")` overshoots at the directory line
`/c`, which is followed by `/d`. -/
def cexLinesD : List (List Nat) :=
  [sampleHeaderLine, strBytes "/a", strBytes "/c", strBytes "/d"]

/-- Fresh parser on `cexLinesD`. -/
def cexParserD : Parser := ⟨sampleHeader, cexLinesD, 1, [], 1⟩

/-! ## Claims -/

/-- C1: on the six-line sample stream, a fresh `advance("/subdir/link")`
returns the symlink entry directly, skipping all prior entries without
error; a second `advance("/subdir/link")` returns `NotFound`; a
subsequent `next()` returns end of stream; and a fresh
`advance("/subdir/zzz")` returns `NotFound`. -/
theorem advance_sample_scenario :
    (parserAdvance sampleParser (strBytes "/subdir/link")).1
      = .found (.link (strBytes "/subdir/link") (strBytes "../hello.txt"))
    ∧ (parserAdvance (parserAdvance sampleParser (strBytes "/subdir/link")).2
        (strBytes "/subdir/link")).1 = .notFound
    ∧ (parserNext (parserAdvance (parserAdvance sampleParser
        (strBytes "/subdir/link")).2 (strBytes "/subdir/link")).2).1 = none
    ∧ (parserAdvance sampleParser (strBytes "/subdir/zzz")).1 = .notFound :=
  ⟨rfl, rfl, rfl, rfl⟩

/-- C2 counterexample: `advance` does not follow raw-byte order of the
full path bytes.  On `cexLinesA`, whose entries are in ascending
raw-byte order and which contains a directory entry whose path equals
the target `/a/b`, `advance("/a/b")` returns `NotFound` (the comparison
`/a-b` vs `/a/b` is `Greater` component-wise although it is `Less`
byte-wise).  On the well-sorted `cexLinesB`, which contains the symlink
entry `/subdir/link`, `advance("/subdir/link")` also returns `NotFound`,
because the skip-files mode entered at `/other` is never left. -/
theorem advance_not_raw_byte_order :
    rawByteCompare (strBytes "/a-b") (strBytes "/a/b") = .lt
    ∧ runNext cexParserA 3
      = [ some (.ok (.dir (strBytes "/a-b")))
        , some (.ok (.dir (strBytes "/a/b"))), none ]
    ∧ (parserAdvance cexParserA (strBytes "/a/b")).1 = .notFound
    ∧ rawByteCompare (strBytes "/") (strBytes "/other") = .lt
    ∧ rawByteCompare (strBytes "/other") (strBytes "/other/x") = .lt
    ∧ rawByteCompare (strBytes "/other/x") (strBytes "/subdir") = .lt
    ∧ rawByteCompare (strBytes "/subdir") (strBytes "/subdir/link") = .lt
    ∧ runNext cexParserB 6
      = [ some (.ok (.dir (strBytes "/")))
        , some (.ok (.dir (strBytes "/other")))
        , some (.ok (.file (strBytes "/other/x") 0 []))
        , some (.ok (.dir (strBytes "/subdir")))
        , some (.ok (.link (strBytes "/subdir/link") (strBytes "../hello.txt")))
        , none ]
    ∧ (parserAdvance cexParserB (strBytes "/subdir/link")).1 = .notFound :=
  ⟨rfl, rfl, rfl, rfl, rfl, rfl, rfl, rfl, rfl⟩

/-- C3: the directory-context invariant fails for `advance`.  On the
sample stream, `advance("/subdir")` yields the Directory entry
`/subdir`, yet the engine's directory context stays `/` (the `Equal`
branch of `advance` never updates it), so the following `next()` parses
`.hidden` against the stale context and yields the full path `/.hidden`
instead of `/subdir/.hidden`. -/
theorem advance_dir_context_stale :
    (parserAdvance sampleParser (strBytes "/subdir")).1
      = .found (.dir (strBytes "/subdir"))
    ∧ (parserAdvance sampleParser (strBytes "/subdir")).2.current_dir
      = strBytes "/"
    ∧ strBytes "/" ≠ strBytes "/subdir"
    ∧ (parserNext (parserAdvance sampleParser (strBytes "/subdir")).2).1
      = some (.ok (.file (strBytes "/.hidden") 58394 [hashB, hashC])) :=
  ⟨rfl, rfl, by decide, rfl⟩

/-- C4: on the six-line sample stream, successive `next()` calls on a
freshly opened engine yield the six entries in order and then end of
stream. -/
theorem next_sample_sequence :
    Parser.new sampleLines = .ok sampleParser
    ∧ runNext sampleParser 7
      = [ some (.ok (.dir (strBytes "/")))
        , some (.ok (.file (strBytes "/empty.txt") 0 []))
        , some (.ok (.file (strBytes "/hello.txt") 6 [hashA]))
        , some (.ok (.dir (strBytes "/subdir")))
        , some (.ok (.file (strBytes "/subdir/.hidden") 58394 [hashB, hashC]))
        , some (.ok (.link (strBytes "/subdir/link") (strBytes "../hello.txt")))
        , none ] :=
  ⟨rfl, rfl⟩

/-- C7: `Header::parse` is not panic-free on a malformed `block_size`
attribute.  When the third field is exactly `block_size` with no `=`,
the source unwraps `None` and panics instead of returning a parse
error; with the value present the same header parses. -/
theorem header_block_size_panics :
    Header.parse (strBytes "DIRSIGNATURE.v1 sha512/256 block_size") = .panicked
    ∧ Header.parse sampleHeaderLine = .ok sampleHeader :=
  ⟨rfl, rfl⟩

/-- C8 counterexample: an entirely blank content line in the middle of
the stream is not an error: on `cexLinesC` (header, `/`, a blank line,
then a file line) the calls to `next()` silently skip the blank line and
yield the directory and the file with no parse error. -/
theorem blank_line_not_error :
    runNext cexParserC 3
      = [ some (.ok (.dir (strBytes "/")))
        , some (.ok (.file (strBytes "/a") 0 []))
        , none ] :=
  rfl

/-- C10 counterexample: the directory line that causes the overshoot is
consumed.  On `cexLinesD`, `advance("/b")` returns `NotFound` at the
directory line `/c`, and the following `next()` yields `/d` — not `/c`
again as the claim states. -/
theorem overshoot_line_consumed :
    (parserAdvance cexParserD (strBytes "/b")).1 = .notFound
    ∧ (parserNext (parserAdvance cexParserD (strBytes "/b")).2).1
      = some (.ok (.dir (strBytes "/d")))
    ∧ (strBytes "/d" : List Nat) ≠ strBytes "/c" :=
  ⟨rfl, rfl, by decide⟩

/-! ## Escape codec proofs (C5, C6) -/

/-- On valid hex digit bytes the source's masked digit extraction agrees
with the mathematical digit value. -/
theorem hexd_eq (c : Nat) (h : is_hex c = true) : hex_to_digit c = hexVal c := by
  simp [is_hex] at h
  unfold hex_to_digit hexVal
  split_ifs <;> omega

/-- The two hex-digit predicates coincide. -/
theorem isHexDigit_eq (c : Nat) : isHexDigit c = is_hex c := rfl

/-- When no escape window starts at the head, the spec decoder copies the
head byte. -/
theorem specDecode_cons_noesc (b : Nat) (rest : List Nat)
    (h : is_hex_encoding (b :: rest) = false) :
    specDecode (b :: rest) = b :: specDecode rest := by
  match b, rest with
  | b, [] => simp [specDecode]
  | b, [x] => simp [specDecode]
  | b, [x, y] => simp [specDecode]
  | b, x :: h1 :: h2 :: r =>
    by_cases hb : b = 92
    · by_cases hx : x = 120
      · subst hb; subst hx
        simp [is_hex_encoding] at h
        simp [specDecode, isHexDigit_eq, h]
        intro hh1 hh2
        simp [h hh1] at hh2
      · simp [specDecode, hx]
    · simp [specDecode, hb]

/-- The rewriting loop of the source computes the spec decoder. -/
theorem unescapeLoop_eq (s : List Nat) : unescapeLoop s = specDecode s := by
  induction s using unescapeLoop.induct with
  | case1 b x h1 h2 r henc ih =>
    have hb := henc
    simp [is_hex_encoding] at hb
    obtain ⟨⟨⟨hb1, hb2⟩, hh1⟩, hh2⟩ := hb
    subst hb1; subst hb2
    simp [unescapeLoop, henc, specDecode, isHexDigit_eq, hh1, hh2, ih,
      parse_hex, hexd_eq _ hh1, hexd_eq _ hh2]
    ring
  | case2 b x h1 h2 r henc ih =>
    have h' : is_hex_encoding (b :: x :: h1 :: h2 :: r) = false := by
      simpa using henc
    rw [specDecode_cons_noesc _ _ h']
    simp [unescapeLoop, h', ih]
  | case3 b r hshape ih =>
    rcases r with _ | ⟨x, _ | ⟨y, _ | ⟨z, r3⟩⟩⟩
    · simp [unescapeLoop, specDecode]
    · simp [unescapeLoop, specDecode, ih]
    · simp [unescapeLoop, specDecode, ih]
    · exact (hshape x y z r3 rfl).elim
  | case4 => simp [unescapeLoop, specDecode]

/-- The pre-scan index never exceeds the length. -/
theorem preScan_le (s : List Nat) : preScan s ≤ s.length := by
  induction s with
  | nil => simp [preScan]
  | cons b rest ih =>
    by_cases h : is_hex_encoding (b :: rest) = true
    · simp [preScan, h]
    · simp [preScan, h]
      omega

/-- The spec decoder copies the escape-free prefix found by the pre-scan
verbatim. -/
theorem specDecode_split (s : List Nat) :
    specDecode s = s.take (preScan s) ++ specDecode (s.drop (preScan s)) := by
  induction s with
  | nil => simp
  | cons b rest ih =>
    by_cases h : is_hex_encoding (b :: rest) = true
    · simp [preScan, h]
    · have h' : is_hex_encoding (b :: rest) = false := by simpa using h
      rw [specDecode_cons_noesc _ _ h']
      simp [preScan, h', Nat.add_comm 1 (preScan rest)]
      exact ih

/-- An escape window exists somewhere iff the pre-scan stops early. -/
theorem containsEscape_iff (s : List Nat) :
    containsEscape s = true ↔ preScan s < s.length := by
  induction s with
  | nil => simp [containsEscape, preScan]
  | cons b rest ih =>
    by_cases h : is_hex_encoding (b :: rest) = true
    · simp [containsEscape, preScan, h]
    · simp [containsEscape, preScan, h, ih]
      omega

/-- C5: for every byte sequence, the bytes produced by `unescape_hex`
are exactly those of the left-to-right spec decoder: each
backslash-`x`-hex-hex window becomes the byte `16 * high + low`, every
other byte (including a lone `\x` without two valid hex digits) is
copied unchanged. -/
theorem unescape_decodes (s : List Nat) : (unescape_hex s).bytes = specDecode s := by
  unfold unescape_hex
  by_cases h : preScan s < s.length
  · simp only [h, if_pos, CowBytes.bytes]
    rw [unescapeLoop_eq, ← specDecode_split]
  · simp only [h, if_neg, CowBytes.bytes, not_false_iff]
    have hle := preScan_le s
    have heq : preScan s = s.length := by omega
    have := specDecode_split s
    rw [heq] at this
    simpa [specDecode] using this.symm

/-- C6: `unescape_hex` returns a borrowed view of the original input
exactly when the input contains no valid escape window, and a freshly
allocated owned buffer exactly when at least one window is present. -/
theorem unescape_borrow_iff (s : List Nat) :
    (unescape_hex s = .borrowed s ↔ containsEscape s = false)
    ∧ ((∃ v, unescape_hex s = .owned v) ↔ containsEscape s = true) := by
  unfold unescape_hex
  by_cases h : preScan s < s.length
  · have hc : containsEscape s = true := (containsEscape_iff s).mpr h
    simp [h, hc]
  · have hc : containsEscape s = false := by
      rcases Bool.eq_false_or_eq_true (containsEscape s) with h1 | h0
      · exact absurd ((containsEscape_iff s).mp h1) h
      · exact h0
    simp [h, hc]

/-! ## The `advance` scan (C2) -/

/-- The source loop of `advance` computes, in its first component, the
spec-side scan prescription. -/
theorem advLoop_eq_scan (target : List Nat) (lines : List (List Nat)) :
    ∀ (sf : Bool) (cd : List Nat) (row : Nat),
    (advLoop target sf cd row lines).1 = scanResult target sf cd row lines := by
  induction lines with
  | nil => intro sf cd row; simp [advLoop, scanResult]
  | cons line rest ih =>
    intro sf cd row
    by_cases hb : line = []
    · subst hb
      simp [advLoop, scanResult, consume1, ih]
    · by_cases hd : line.head? = some 47
      · cases hcmp : pathCompare (parse_field line).1 target with
        | lt =>
          by_cases hsw : pathStartsWith target (parse_field line).1
          · simp [advLoop, scanResult, classifyLine, hb, hd, hcmp, hsw, consume1, ih]
          · simp [advLoop, scanResult, classifyLine, hb, hd, hcmp, hsw, consume1, ih]
        | eq => simp [advLoop, scanResult, classifyLine, hb, hd, hcmp]
        | gt => simp [advLoop, scanResult, classifyLine, hb, hd, hcmp]
      · by_cases hsf : sf
        · by_cases ht : line.take 2 = [32, 32]
          · simp [advLoop, scanResult, classifyLine, hb, hd, hsf, ht, consume1, ih]
          · simp [advLoop, scanResult, classifyLine, hb, hd, hsf, ht, consume1, ih]
        · by_cases ht : line.take 2 = [32, 32]
          · cases hcmp : pathCompare (pathJoin cd (parse_field (line.drop 2)).1) target with
            | lt => simp [advLoop, scanResult, classifyLine, hb, hd, hsf, ht, hcmp, consume1, ih]
            | eq =>
              cases hp : Entry.parse line cd with
              | ok e => simp [advLoop, scanResult, classifyLine, hb, hd, hsf, ht, hcmp, hp]
              | error m => simp [advLoop, scanResult, classifyLine, hb, hd, hsf, ht, hcmp, hp]
            | gt => simp [advLoop, scanResult, classifyLine, hb, hd, hsf, ht, hcmp]
          · simp [advLoop, scanResult, classifyLine, hb, hd, hsf, ht]

/-- C2 amended: every path comparison made by `advance` is by
component-wise path order (components compared as raw byte strings), not
by raw-byte order of the full path bytes; and for every engine state and
target, `advance` returns exactly what the component-ordered forward
scan `scanResult` prescribes, in which the skip-files mode entered at a
passed non-ancestor directory persists for the remainder of the call and
suppresses inspection of every non-directory line. -/
theorem advance_matches_scan (p : Parser) (target : List Nat) :
    (parserAdvance p target).1
      = scanResult target (! pathStartsWith target p.current_dir)
          p.current_dir p.current_row_num (p.source.drop p.pos) := by
  rw [← advLoop_eq_scan]
  unfold parserAdvance
  rcases h : advLoop target (! pathStartsWith target p.current_dir)
      p.current_dir p.current_row_num (p.source.drop p.pos) with ⟨res, n, cd, row⟩
  simp [h]

/-! ## Line framing and sequential iteration (C8, C9) -/

/-- The results of successive `next()` calls depend only on the lines
not yet consumed, never on the header value or on how the position is
split between source and offset. -/
theorem runNext_congr (n : Nat) :
    ∀ (hd1 hd2 : Header) (s1 s2 : List (List Nat)) (p1 p2 : Nat)
      (cd : List Nat) (row : Nat),
    s1.drop p1 = s2.drop p2 →
    runNext ⟨hd1, s1, p1, cd, row⟩ n = runNext ⟨hd2, s2, p2, cd, row⟩ n := by
  induction n with
  | zero => intros; rfl
  | succ n ih =>
    intro hd1 hd2 s1 s2 p1 p2 cd row h
    have hdrop : ∀ k, s1.drop (p1 + k) = s2.drop (p2 + k) := by
      intro k
      rw [← List.drop_drop, ← List.drop_drop, h]
    cases hsb : skipBlank (s2.drop p2) with
    | none =>
      have h1 : skipBlank (List.drop p1 s1) = none := by rw [h, hsb]
      simp only [runNext, parserNext, nextLine, h1, hsb]
      exact congrArg _ (ih hd1 hd2 s1 s2 s1.length s2.length cd row (by simp))
    | some lk =>
      rcases lk with ⟨l, k⟩
      have h1 : skipBlank (List.drop p1 s1) = some (l, k) := by rw [h, hsb]
      simp only [runNext, parserNext, nextLine, h1, hsb]
      cases hp : Entry.parse l cd with
      | error e => simpa using ih hd1 hd2 s1 s2 (p1 + k) (p2 + k) cd (row + 1) (hdrop k)
      | ok ent =>
        cases ent with
        | dir d => simpa [hp] using ih hd1 hd2 s1 s2 (p1 + k) (p2 + k) d (row + 1) (hdrop k)
        | file a b c => simpa [hp] using ih hd1 hd2 s1 s2 (p1 + k) (p2 + k) cd (row + 1) (hdrop k)
        | link a b => simpa [hp] using ih hd1 hd2 s1 s2 (p1 + k) (p2 + k) cd (row + 1) (hdrop k)

/-- A blank line at the current position is invisible to the entire
following sequence of `next()` results. -/
theorem blank_skip_core (hd : Header) (rest : List (List Nat)) (cd : List Nat)
    (row n : Nat) :
    runNext ⟨hd, [] :: rest, 0, cd, row⟩ n = runNext ⟨hd, rest, 0, cd, row⟩ n := by
  cases n with
  | zero => rfl
  | succ n =>
    cases hsb : skipBlank rest with
    | none =>
      have h1 : skipBlank (List.drop 0 ([] :: rest)) = none := by
        simp [skipBlank, hsb]
      have h2 : skipBlank (List.drop 0 rest) = none := by simpa using hsb
      simp only [runNext, parserNext, nextLine, h1, h2]
      exact congrArg _ (runNext_congr n hd hd _ _ _ _ cd row (by simp))
    | some lk =>
      rcases lk with ⟨l, k⟩
      have h1 : skipBlank (List.drop 0 ([] :: rest)) = some (l, k + 1) := by
        simp [skipBlank, hsb]
      have h2 : skipBlank (List.drop 0 rest) = some (l, k) := by simpa using hsb
      simp only [runNext, parserNext, nextLine, h1, h2]
      have hdr : ([] :: rest).drop (0 + (k + 1)) = rest.drop (0 + k) := by
        simp [List.drop_succ_cons]
      cases hp : Entry.parse l cd with
      | error e => simpa using runNext_congr n hd hd _ _ _ _ cd (row + 1) hdr
      | ok ent =>
        cases ent with
        | dir d => simpa [hp] using runNext_congr n hd hd _ _ _ _ d (row + 1) hdr
        | file a b c => simpa [hp] using runNext_congr n hd hd _ _ _ _ cd (row + 1) hdr
        | link a b => simpa [hp] using runNext_congr n hd hd _ _ _ _ cd (row + 1) hdr

/-- C8 amended: an entirely blank content line is silently skipped, not
an error — the whole sequence of `next()` results with a blank line at
the current position equals the sequence with the blank line removed —
and a single trailing newline produces no extra line at all (here for a
concrete two-line stream), hence no entry and no error. -/
theorem blank_line_framing :
    (∀ (hd : Header) (rest : List (List Nat)) (cd : List Nat) (row n : Nat),
      runNext ⟨hd, [] :: rest, 0, cd, row⟩ n = runNext ⟨hd, rest, 0, cd, row⟩ n)
    ∧ streamLines (sampleHeaderLine ++ 10 :: (strBytes "/" ++ [10]))
      = [sampleHeaderLine, strBytes "/"] :=
  ⟨blank_skip_core, rfl⟩

/-- C9: after any sequence of operations, `reset()` leaves the engine
positioned immediately after the header line with a cleared directory
context and the row counter at 1, and replaying the iteration yields
exactly the sequence of a freshly constructed engine on the same
stream. -/
theorem reset_replays_fresh (p q : Parser) (h : Parser.new p.source = .ok q) :
    (parserReset p).source = p.source
    ∧ (parserReset p).pos = 1
    ∧ (parserReset p).current_dir = []
    ∧ (parserReset p).current_row_num = 1
    ∧ ∀ n, runNext (parserReset p) n = runNext q n := by
  obtain ⟨php, ps, pp, pc, pr⟩ := p
  cases hh : Header.parse (ps.head?.getD []) with
  | err m => simp [Parser.new, hh] at h
  | panicked => simp [Parser.new, hh] at h
  | ok hdr =>
    have hq : q = ⟨hdr, ps, 1, [], 1⟩ := by
      simp [Parser.new, hh] at h
      exact h.symm
    subst hq
    have hnil : Header.parse ([] : List Nat) = .err "Invalid signature" := rfl
    rcases ps with _ | ⟨l, tl⟩
    · simp only [List.head?_nil, Option.getD_none] at hh
      rw [hnil] at hh
      simp at hh
    · have hl : l ≠ [] := by
        intro hle
        subst hle
        simp only [List.head?_cons, Option.getD_some] at hh
        rw [hnil] at hh
        simp at hh
      have hres : parserReset ⟨php, l :: tl, pp, pc, pr⟩
          = ⟨php, l :: tl, 1, [], 1⟩ := by
        simp [parserReset, nextLine, skipBlank, hl]
      refine ⟨by rw [hres], by rw [hres], by rw [hres], by rw [hres], ?_⟩
      intro n
      rw [hres]
      exact runNext_congr n php hdr _ _ _ _ [] 1 rfl

/-- Witness for C9: resetting the sample engine after an `advance`
replays exactly the fresh sequence. -/
theorem reset_replays_fresh_witness :
    Parser.new ((parserAdvance sampleParser (strBytes "/subdir")).2).source
      = .ok sampleParser
    ∧ runNext (parserReset ((parserAdvance sampleParser (strBytes "/subdir")).2)) 7
      = runNext sampleParser 7 :=
  ⟨rfl, (reset_replays_fresh ((parserAdvance sampleParser (strBytes "/subdir")).2)
    sampleParser rfl).2.2.2.2 7⟩

/-! ## Overshoot behaviour of `advance` (C10) -/

/-- C10 amended: when the `advance` scan meets a directory line whose
path compares greater than the target, it returns `NotFound` with that
directory line consumed — exactly one line is consumed, so the next
operation reads the line after it — while the directory context is left
unchanged by this return and the row counter counts the consumed line;
the header is never touched by `advance` at all. -/
theorem overshoot_not_reoffered :
    (∀ (target : List Nat) (sf : Bool) (cd : List Nat) (row : Nat)
      (line : List Nat) (rest : List (List Nat)),
      line.head? = some 47 →
      pathCompare (parse_field line).1 target = .gt →
      advLoop target sf cd row (line :: rest) = (.notFound, 1, cd, row + 1))
    ∧ ∀ (p : Parser) (target : List Nat),
      (parserAdvance p target).2.header = p.header := by
  constructor
  · intro target sf cd row line rest hd hcmp
    have hne : line ≠ [] := by
      intro h
      subst h
      simp at hd
    simp [advLoop, hne, hd, hcmp]
  · intro p target
    unfold parserAdvance
    rcases advLoop target (! pathStartsWith target p.current_dir)
        p.current_dir p.current_row_num (p.source.drop p.pos) with ⟨res, n, cd, row⟩
    rfl

/-- Witness for C10 amended: a concrete overshoot at `/c` while seeking
`/b` consumes exactly the `/c` line and keeps the directory context. -/
theorem overshoot_not_reoffered_witness :
    advLoop (strBytes "/b") false [] 1 [strBytes "/c", strBytes "/d"]
      = (.notFound, 1, [], 2)
    ∧ (parserAdvance sampleParser (strBytes "/b")).2.header = sampleHeader :=
  ⟨overshoot_not_reoffered.1 (strBytes "/b") false [] 1 (strBytes "/c")
      [strBytes "/d"] rfl rfl
  , overshoot_not_reoffered.2 sampleParser (strBytes "/b")⟩

end DirSig
